import Mathlib

/-!
Verification of the development supervisor `dev.py` (RoseWrightdev/Social-Media).

The supervisor launches two child services ("Go  " and "Next"), relays their
output with per-service coloring and sanitization, records process ids in a
`pids` directory, and on interruption terminates recorded processes.

This file gives a shallow embedding of `dev.py`:
  * `sanitize` models the line-sanitization in `handle_output` (lines 23-25):
    two `str.replace` calls followed by `re.sub(r'[^\x00-\x7F]+', '', line)`;
  * `handle_output` models the output-relay loop (lines 20-29) over an
    abstract stream of read results;
  * `start_processes`, `stopLoop` / `stop_processes` and `py_main` model the
    process-lifecycle functions as explicit state transformers producing an
    event trace.
Strings from the child are modelled as `List Char` (Python `str` is a
sequence of Unicode code points, as is Lean's `Char` list).
-/

namespace Dev

/-- A character is plain ASCII exactly when its code point is at most 0x7F;
this is the character class kept by the regex `[^\x00-\x7F]` complement. -/
def isAsciiChar (c : Char) : Bool := c.toNat ≤ 0x7F

/-- The mojibake glyph `'â–²'` (U+00E2, U+2013, U+00B2) replaced first in
`handle_output` ("building" marker). -/
def buildingGlyph : List Char := ['â', '–', '²']

/-- The mojibake glyph `'âœ“'` (U+00E2, U+0153, U+201C) replaced second in
`handle_output` ("success" marker). -/
def successGlyph : List Char := ['â', 'œ', '“']

/-- The replacement string of the second `replace` call: the single character
`'✓'` (U+2713), which is itself not ASCII. -/
def checkMark : List Char := ['✓']

/-- Python `str.replace`: scan left to right, replacing each non-overlapping
occurrence of `pat` by `repl`. The extra fuel argument makes the recursion
structural; `replaceAll` supplies fuel `s.length`, which suffices because
each step consumes at least one character of the input (the callers in
`dev.py` always pass a non-empty, three-character pattern, so the
empty-pattern guard is never exercised). -/
def replaceAllFuel (pat repl : List Char) : Nat → List Char → List Char
  | 0, s => s
  | _ + 1, [] => []
  | fuel + 1, c :: rest =>
    if pat.isPrefixOf (c :: rest) && !pat.isEmpty then
      repl ++ replaceAllFuel pat repl fuel ((c :: rest).drop pat.length)
    else
      c :: replaceAllFuel pat repl fuel rest

/-- Python `s.replace(pat, repl)` on code-point lists. -/
def replaceAll (pat repl s : List Char) : List Char :=
  replaceAllFuel pat repl s.length s

/-- The two `str.replace` calls of `handle_output` line 23, in source order:
first the building glyph becomes `'^'`, then the success glyph becomes
`'✓'`. -/
def substGlyphs (s : List Char) : List Char :=
  replaceAll successGlyph checkMark (replaceAll buildingGlyph ['^'] s)

/-- `re.sub(r'[^\x00-\x7F]+', '', line)`: delete every non-ASCII character
(replacing maximal non-ASCII runs by the empty string is the same as
filtering character-wise). -/
def stripNonAscii (s : List Char) : List Char := s.filter isAsciiChar

/-- The whole sanitization pass applied to each relayed line:
glyph substitution, then non-ASCII stripping (lines 23-25 of `dev.py`). -/
def sanitize (s : List Char) : List Char := stripNonAscii (substGlyphs s)

/-- One result of `process.stdout.readline()` as seen by the relay loop:
either a line of text, or the read raising an exception. End of stream
(readline returning `''`) is the end of the result list. -/
inductive ReadResult where
  | line (l : List Char)
  | readError
deriving DecidableEq

/-- The `colors` dictionary of `handle_output` together with its
`colors.get(identifier, "\033[0m")` default. -/
def colors (identifier : String) : List Char :=
  if identifier = "Go  " then "\x1b[94m".data
  else if identifier = "Next" then "\x1b[92m".data
  else "\x1b[0m".data

/-- `reset_color = "\033[0m"`. -/
def resetColor : List Char := "\x1b[0m".data

/-- The exact text written for one relayed line:
`f"{color}{identifier}:{reset_color} {line}"` with `line` already
sanitized. -/
def emitLine (identifier : String) (l : List Char) : List Char :=
  colors identifier ++ identifier.data ++ ':' :: resetColor ++ ' ' :: sanitize l

/-- Observable outcome of one run of the relay: the lines written to the
supervisor's stdout, whether `process.stdout.close()` was executed, and
whether the loop ended by an exception escaping it. -/
structure RelayResult where
  output : List (List Char)
  closed : Bool
  raised : Bool
deriving DecidableEq

/-- The relay loop of `handle_output` (lines 20-29). `iter(readline, '')`
stops at an empty result (modelled both by the end of the list and by a
`line []` element, matching the loop's `else: break`); after a normal loop
exit `process.stdout.close()` runs. A raising read propagates out of the
function, so the close call after the loop is skipped. -/
def handle_output (identifier : String) : List ReadResult → RelayResult
  | [] => ⟨[], true, false⟩
  | ReadResult.readError :: _ => ⟨[], false, true⟩
  | ReadResult.line l :: rest =>
    if l = [] then ⟨[], true, false⟩
    else
      let r := handle_output identifier rest
      ⟨emitLine identifier l :: r.output, r.closed, r.raised⟩

/-- The lines the relay loop actually reads and relays: the non-empty
lines of the stream up to the first empty read (the `iter` sentinel /
`else: break`) or raising read. -/
def readLines : List ReadResult → List (List Char)
  | [] => []
  | ReadResult.readError :: _ => []
  | ReadResult.line l :: rest =>
    if l = [] then [] else l :: readLines rest

/-- Observable actions of the lifecycle functions, in program order. -/
inductive Event where
  | makePidsDir
  | chdir (dir : String)
  | spawn (label : String) (pid : Nat)
  | relayStart (label : String)
  | writePidFile (file : String) (contents : String)
  | joinRelay (label : String)
  | sendConfirm
  | terminate (pid : Int)
  | print (msg : String)
deriving DecidableEq

/-- Supervisor-visible state threaded through the lifecycle functions:
the process-wide current working directory (`os.chdir` target), whether the
`pids` directory exists, and the files inside it as (name, contents) pairs. -/
structure SupState where
  cwd : String
  pidsDirExists : Bool
  pidFiles : List (String × String)
deriving DecidableEq

/-- `open(path, 'w')` then `write`: overwrite the record if a file of that
name exists, otherwise add it. -/
def writeFileRecord (file contents : String) (files : List (String × String)) :
    List (String × String) :=
  if files.any (fun p => p.1 = file) then
    files.map (fun p => if p.1 = file then (file, contents) else p)
  else
    files ++ [(file, contents)]

/-- Lines 36-37: `if not os.path.exists(pids_dir): os.makedirs(pids_dir)`. -/
def ensurePidsDir (st : SupState) : SupState × List Event :=
  if st.pidsDirExists then (st, [])
  else ({ st with pidsDirExists := true }, [Event.makePidsDir])

/-- Lines 40-46: `os.chdir(base/backend/go)`, `Popen(["go","run","."])`,
start the relay thread, then write `go.pid`. The pid file is written only
after the relay thread has been started. -/
def launchGo (base : String) (goPid : Nat) (st : SupState) : SupState × List Event :=
  ({ st with
      cwd := base ++ "/backend/go"
      pidFiles := writeFileRecord "go.pid" (toString goPid) st.pidFiles },
   [Event.chdir (base ++ "/backend/go"), Event.spawn "Go  " goPid,
    Event.relayStart "Go  ", Event.writePidFile "go.pid" (toString goPid)])

/-- Lines 49-57: `os.chdir(base/frontend)`, `Popen(npm run dev)`, start the
relay thread. No pid file is written for this service. -/
def launchNext (base : String) (nextPid : Nat) (st : SupState) : SupState × List Event :=
  ({ st with cwd := base ++ "/frontend" },
   [Event.chdir (base ++ "/frontend"), Event.spawn "Next" nextPid,
    Event.relayStart "Next"])

/-- `start_processes` (lines 31-60): ensure the pids directory, launch the
Go service, launch the Next service, then join both relay threads. `base`
stands for `os.path.dirname(os.path.abspath(__file__))` and the fresh OS
pids are parameters. -/
def start_processes (base : String) (goPid nextPid : Nat) (st : SupState) :
    SupState × List Event :=
  let s1 := ensurePidsDir st
  let s2 := launchGo base goPid s1.1
  let s3 := launchNext base nextPid s2.1
  (s3.1, s1.2 ++ s2.2 ++ s3.2 ++ [Event.joinRelay "Go  ", Event.joinRelay "Next"])

/-- The labels of the services spawned in a trace, in order. -/
def launchedLabels (tr : List Event) : List String :=
  tr.filterMap (fun e =>
    match e with
    | Event.spawn label _ => some label
    | _ => none)

/-- Status of the OS process behind a pid, as surfaced by `psutil`:
running, or one of the three exception cases the `except` clause of
`stop_processes` tolerates (`NoSuchProcess`, `AccessDenied`,
`ZombieProcess`). -/
inductive ProcStatus where
  | running
  | noSuchProcess
  | accessDenied
  | zombie
deriving DecidableEq

/-- The tolerated statuses: exactly those caught on line 80. -/
def tolerated : ProcStatus → Bool
  | ProcStatus.running => false
  | _ => true

/-- `str.strip()` restricted to the ASCII whitespace that can occur in a pid
file (`Char.isWhitespace` covers space, tab, CR and LF). -/
def pyStrip (s : List Char) : List Char :=
  ((s.dropWhile Char.isWhitespace).reverse.dropWhile Char.isWhitespace).reverse

/-- Value of a non-empty string of decimal digits. -/
def digitsToNat (s : List Char) : Nat :=
  s.foldl (fun a c => a * 10 + (c.toNat - '0'.toNat)) 0

/-- `int(text)` on the stripped contents of a pid file: an optional sign
followed by at least one decimal digit, else a `ValueError` (`none`).
Modelled on the decimal core of Python's `int`. -/
def pyInt (s : List Char) : Option Int :=
  match pyStrip s with
  | '-' :: ds =>
    if ds ≠ [] ∧ ds.all Char.isDigit then some (-(digitsToNat ds : Int)) else none
  | '+' :: ds =>
    if ds ≠ [] ∧ ds.all Char.isDigit then some (digitsToNat ds : Int) else none
  | ds =>
    if ds ≠ [] ∧ ds.all Char.isDigit then some (digitsToNat ds : Int) else none

/-- The message printed on line 81 when a termination attempt fails. -/
def couldNotTerminateMsg (pid : Int) : String :=
  "Process " ++ toString pid ++ " could not be terminated."

/-- Outcome of the registry loop of `stop_processes`: messages printed,
pids successfully sent `terminate()`, the pid files still present when the
loop ends, and whether an exception escaped the loop. -/
structure StopResult where
  printed : List String
  terminated : List Int
  files : List (String × String)
  raised : Bool
deriving DecidableEq

/-- Lines 74-82 of `stop_processes`: for each pid file, read and parse its
contents — the `int(...)` call sits outside the `try`, so a parse failure
raises out of the whole loop, leaving the current and all later files in
place; on a successful parse, a tolerated `psutil` failure only prints a
message; either way the file is then removed and the loop continues. -/
def stopLoop (os : Int → ProcStatus) : List (String × String) → StopResult
  | [] => ⟨[], [], [], false⟩
  | (name, contents) :: rest =>
    match pyInt contents.data with
    | none => ⟨[], [], (name, contents) :: rest, true⟩
    | some pid =>
      let r := stopLoop os rest
      match os pid with
      | ProcStatus.running =>
        ⟨r.printed, pid :: r.terminated, r.files, r.raised⟩
      | _ =>
        ⟨couldNotTerminateMsg pid :: r.printed, r.terminated, r.files, r.raised⟩

/-- `stop_processes` (lines 62-82): if the Next child is known and still
running, send the `'y'` confirmation, then run the registry loop over the
pid files (the confirmation-write failure handling of lines 68-69 prints
and continues and is not needed by any claim, so it is not parameterized
here). -/
def stop_processes (os : Int → ProcStatus) (nextRunning : Bool) (st : SupState) :
    SupState × List Event :=
  let confirm := if nextRunning then [Event.sendConfirm] else []
  let r := stopLoop os st.pidFiles
  ({ st with pidFiles := r.files },
   confirm ++ r.terminated.map Event.terminate ++ r.printed.map Event.print)

/-- The `if __name__ == "__main__"` block (lines 84-90): call
`start_processes()` — the command line `argv` is never consulted — and on a
`KeyboardInterrupt` (the `interrupted` parameter) run `stop_processes` and
print the exit message. -/
def py_main (argv : List String) (base : String) (goPid nextPid : Nat)
    (interrupted nextRunning : Bool) (os : Int → ProcStatus) (st : SupState) :
    SupState × List Event :=
  let s1 := start_processes base goPid nextPid st
  if interrupted then
    let s2 := stop_processes os nextRunning s1.1
    (s2.1, s1.2 ++ s2.2 ++ [Event.print "\nScript terminated by user. Exiting..."])
  else
    (s1.1, s1.2)

/-- Does an event start the Go relay thread? -/
def isRelayStartGo : Event → Bool
  | Event.relayStart label => label == "Go  "
  | _ => false

/-- Does an event write the Go pid file? -/
def isGoPidWrite : Event → Bool
  | Event.writePidFile file _ => file == "go.pid"
  | _ => false

/-- Does an event write any pid file? -/
def isPidWrite : Event → Bool
  | Event.writePidFile _ _ => true
  | _ => false

/-! ## Sanitization lemmas -/

/-- A `replace` whose pattern starts with a non-ASCII character leaves any
all-ASCII string unchanged: the pattern can match at no position. -/
theorem replaceAllFuel_id_of_ascii (p : Char) (ps repl : List Char)
    (hp : isAsciiChar p = false) :
    ∀ (fuel : Nat) (s : List Char), (∀ c ∈ s, isAsciiChar c = true) →
      replaceAllFuel (p :: ps) repl fuel s = s := by
  intro fuel
  induction fuel with
  | zero =>
    intro s _
    rfl
  | succ n ih =>
    intro s hs
    cases s with
    | nil => rfl
    | cons c rest =>
      have hc : isAsciiChar c = true := hs c (List.mem_cons_self c rest)
      have hpc : (p == c) = false := by
        apply beq_eq_false_iff_ne.mpr
        intro h
        rw [h, hc] at hp
        cases hp
      have hpre : (p :: ps).isPrefixOf (c :: rest) = false := by
        simp only [List.isPrefixOf, hpc, Bool.false_and]
      rw [replaceAllFuel, hpre]
      simp [ih rest (fun c hc => hs c (List.mem_cons_of_mem _ hc))]

/-- `replaceAll` version of `replaceAllFuel_id_of_ascii`. -/
theorem replaceAll_id_of_ascii (p : Char) (ps repl s : List Char)
    (hp : isAsciiChar p = false) (hs : ∀ c ∈ s, isAsciiChar c = true) :
    replaceAll (p :: ps) repl s = s :=
  replaceAllFuel_id_of_ascii p ps repl hp s.length s hs

/-- On an all-ASCII string the whole sanitization pass is the identity:
both glyph patterns start with the non-ASCII `'â'`, and the filter keeps
every ASCII character. -/
theorem sanitizeAsciiId (s : List Char) (hs : ∀ c ∈ s, isAsciiChar c = true) :
    sanitize s = s := by
  have h1 : replaceAll buildingGlyph ['^'] s = s :=
    replaceAll_id_of_ascii 'â' ['–', '²'] ['^'] s (by decide) hs
  have h2 : replaceAll successGlyph checkMark s = s :=
    replaceAll_id_of_ascii 'â' ['œ', '“'] checkMark s (by decide) hs
  rw [sanitize, substGlyphs, h1, h2, stripNonAscii]
  exact List.filter_eq_self.mpr hs

/-- Every character surviving sanitization is ASCII: the final step filters
on `isAsciiChar`. -/
theorem mem_sanitize_ascii (s : List Char) :
    ∀ c ∈ sanitize s, isAsciiChar c = true := by
  intro c hc
  rw [sanitize, stripNonAscii] at hc
  exact (List.mem_filter.mp hc).2

/-! ## Claims -/

/-- C4: the sanitization pass of `handle_output` is idempotent:
`sanitize (sanitize L) = sanitize L` for every line `L`. The output of
`sanitize` is all-ASCII, and `sanitize` is the identity on all-ASCII
strings. -/
theorem sanitize_idempotent (s : List Char) :
    sanitize (sanitize s) = sanitize s :=
  sanitizeAsciiId (sanitize s) (mem_sanitize_ascii s)

/-- C5: on a line consisting only of plain-ASCII characters the
sanitization pass is the identity. -/
theorem sanitize_ascii_identity (s : List Char)
    (h : ∀ c ∈ s, isAsciiChar c = true) : sanitize s = s :=
  sanitizeAsciiId s h

/-- Witness for C5 at the concrete line `"hello world"`. -/
theorem sanitize_ascii_identity_witness :
    (∀ c ∈ "hello world".data, isAsciiChar c = true) ∧
      sanitize "hello world".data = "hello world".data :=
  ⟨by decide, sanitize_ascii_identity "hello world".data (by decide)⟩

/-- C6 counterexample: the success glyph is not replaced by a plain ASCII
equivalent. The substitution step maps it to `'✓'` (U+2713), which is
itself non-ASCII, and the strip step then deletes it, so a line consisting
of the success glyph is relayed with the glyph removed entirely — the
emitted text after the label prefix is empty. -/
theorem success_glyph_not_ascii_replaced_cex :
    substGlyphs successGlyph = checkMark ∧
    isAsciiChar '✓' = false ∧
    sanitize successGlyph = [] ∧
    (handle_output "Next" [ReadResult.line successGlyph]).output =
      [colors "Next" ++ "Next".data ++ ':' :: resetColor ++ ' ' :: []] := by
  decide

/-- C6 (amended): the relay's output is exactly, line for line and in
order, `color ++ label ++ ":" ++ reset ++ " " ++ sanitize line` for every
non-empty line it reads, and each such `sanitize line` contains only ASCII
characters; the building glyph is replaced by the ASCII `'^'`, while the
success glyph is removed (its configured substitute `'✓'` is itself
non-ASCII and is stripped). -/
theorem relay_emits_sanitized (identifier : String) (stream : List ReadResult) :
    (handle_output identifier stream).output =
      (readLines stream).map (emitLine identifier) ∧
    (∀ l ∈ readLines stream, l ≠ [] ∧
      ∀ c ∈ sanitize l, isAsciiChar c = true) ∧
    sanitize buildingGlyph = ['^'] ∧ sanitize successGlyph = [] := by
  refine ⟨?_, ?_, by decide, by decide⟩
  · induction stream with
    | nil => rfl
    | cons hd rest ih =>
      cases hd with
      | readError => rfl
      | line l =>
        by_cases hl : l = []
        · simp [handle_output, readLines, hl]
        · simp [handle_output, readLines, hl, ih]
  · induction stream with
    | nil =>
      intro l hl
      cases hl
    | cons hd rest ih =>
      intro l hl
      cases hd with
      | readError => cases hl
      | line hd' =>
        by_cases hh : hd' = []
        · simp [readLines, hh] at hl
        · simp only [readLines, if_neg hh, List.mem_cons] at hl
          cases hl with
          | inl h => exact ⟨h ▸ hh, h ▸ mem_sanitize_ascii hd'⟩
          | inr h => exact ih l h

/-- Witness for C6 (amended) at the stream holding the single line "ok". -/
theorem relay_emits_sanitized_witness :
    ((handle_output "Go  " [ReadResult.line ['o', 'k']]).output =
      (readLines [ReadResult.line ['o', 'k']]).map (emitLine "Go  ") ∧
     (∀ l ∈ readLines [ReadResult.line ['o', 'k']], l ≠ [] ∧
       ∀ c ∈ sanitize l, isAsciiChar c = true) ∧
     sanitize buildingGlyph = ['^'] ∧ sanitize successGlyph = []) ∧
    readLines [ReadResult.line ['o', 'k']] = [['o', 'k']] :=
  ⟨relay_emits_sanitized "Go  " [ReadResult.line ['o', 'k']], by decide⟩

/-- C8 counterexample: a stream that yields one line and then raises on the
next read. The relay relays the line (output is non-empty) but the
exception escapes the loop before `process.stdout.close()` is reached, so
the stream handle is not closed. -/
theorem relay_close_skipped_on_error_cex :
    (handle_output "Go  "
      [ReadResult.line ['o', 'k'], ReadResult.readError]).closed = false ∧
    (handle_output "Go  "
      [ReadResult.line ['o', 'k'], ReadResult.readError]).output ≠ [] := by
  decide

/-- C8 (amended): the relay closes the child's output stream exactly on the
exit paths where no read raised — `process.stdout.close()` follows the loop
rather than sitting in a `finally`, so a raising read leaves the handle
open. -/
theorem relay_closed_iff_not_raised (identifier : String)
    (stream : List ReadResult) :
    (handle_output identifier stream).closed =
      !(handle_output identifier stream).raised := by
  induction stream with
  | nil => rfl
  | cons hd rest ih =>
    cases hd with
    | readError => rfl
    | line l =>
      by_cases hl : l = []
      · simp [handle_output, hl]
      · simp [handle_output, hl, ih]

/-- C1 counterexample: starting from an empty registry, `start_processes`
spawns both services but persists a pid record only for the Go service —
no record holds the Next service's pid (200), so the set of recorded names
is strictly smaller than the set of launched names. -/
theorem start_registry_omits_next_cex :
    (start_processes "/app" 100 200
      ⟨"/app", false, []⟩).1.pidFiles = [("go.pid", "100")] ∧
    launchedLabels (start_processes "/app" 100 200
      ⟨"/app", false, []⟩).2 = ["Go  ", "Next"] ∧
    ¬ ∃ p ∈ (start_processes "/app" 100 200
      ⟨"/app", false, []⟩).1.pidFiles, p.2 = "200" := by
  decide

/-- C1 (amended): after the start routine has launched both configured
services starting from an empty registry, exactly one pid record exists —
`go.pid` holding the Go service's pid; the Next service is launched with no
persisted record. -/
theorem start_registry_go_only (base : String) (goPid nextPid : Nat)
    (st : SupState) (h : st.pidFiles = []) :
    (start_processes base goPid nextPid st).1.pidFiles =
      [("go.pid", toString goPid)] ∧
    launchedLabels (start_processes base goPid nextPid st).2 =
      ["Go  ", "Next"] := by
  obtain ⟨cwd, dirEx, files⟩ := st
  simp only at h
  subst h
  cases dirEx <;> exact ⟨rfl, rfl⟩

/-- Witness for C1 (amended) at a concrete initial state. -/
theorem start_registry_go_only_witness :
    (SupState.mk "/app" false []).pidFiles = [] ∧
    ((start_processes "/app" 100 200 (SupState.mk "/app" false [])).1.pidFiles =
      [("go.pid", toString 100)] ∧
     launchedLabels
       (start_processes "/app" 100 200 (SupState.mk "/app" false [])).2 =
       ["Go  ", "Next"]) :=
  ⟨rfl, start_registry_go_only "/app" 100 200 (SupState.mk "/app" false []) rfl⟩

/-- C3 counterexample: in the launch sequence the Go relay thread is
started (trace index 2) before the Go pid record is written (trace index
3), so the registry entry does not exist before the relay begins. -/
theorem pid_write_after_relay_start_cex :
    ((start_processes "/app" 100 200
      ⟨"/app", true, []⟩).2.findIdx isRelayStartGo = 2) ∧
    ((start_processes "/app" 100 200
      ⟨"/app", true, []⟩).2.findIdx isGoPidWrite = 3) := by
  decide

/-- C3 (amended): for every start, the Go relay thread is started strictly
before the Go pid record is written, and the only pid record written during
the whole launch sequence is `go.pid` (the Next service gets none). -/
theorem relay_start_precedes_pid_write (base : String) (goPid nextPid : Nat)
    (st : SupState) :
    ((start_processes base goPid nextPid st).2.findIdx isRelayStartGo <
      (start_processes base goPid nextPid st).2.findIdx isGoPidWrite) ∧
    (start_processes base goPid nextPid st).2.filter isPidWrite =
      [Event.writePidFile "go.pid" (toString goPid)] := by
  obtain ⟨cwd, dirEx, files⟩ := st
  cases dirEx with
  | false => exact ⟨Nat.lt.base 3, rfl⟩
  | true => exact ⟨Nat.lt.base 2, rfl⟩

/-- C9 counterexample: launching the Go service from working directory
`"/app"` leaves the working directory at `"/app/backend/go"` — the
pre-launch directory is not restored after the launch returns. -/
theorem cwd_not_restored_cex :
    ((launchGo "/app" 100 ⟨"/app", true, []⟩).1.cwd = "/app/backend/go") ∧
    "/app/backend/go" ≠ "/app" := by
  decide

/-- C9 (amended): each launch leaves the process-wide working directory set
to its own service's directory, whatever it was before — `os.chdir` is
called immediately before each spawn and never undone, so after the whole
start sequence the directory is the last launch's directory. -/
theorem launch_sets_cwd_unconditionally (base : String) (goPid nextPid : Nat)
    (st st' : SupState) :
    (launchGo base goPid st).1.cwd = base ++ "/backend/go" ∧
    (launchNext base nextPid st').1.cwd = base ++ "/frontend" ∧
    (start_processes base goPid nextPid st).1.cwd = base ++ "/frontend" := by
  obtain ⟨cwd, dirEx, files⟩ := st
  cases dirEx <;> exact ⟨rfl, rfl, rfl⟩

/-- Unfolding of one registry-loop step whose pid file parses: a tolerated
status prints the failure message, a running process is terminated; either
way the file is removed and the loop continues on the rest. -/
theorem stopLoop_cons_some (os : Int → ProcStatus) (name contents : String)
    (rest : List (String × String)) (pid : Int)
    (hpid : pyInt contents.data = some pid) :
    stopLoop os ((name, contents) :: rest) =
      if tolerated (os pid) then
        ⟨couldNotTerminateMsg pid :: (stopLoop os rest).printed,
         (stopLoop os rest).terminated, (stopLoop os rest).files,
         (stopLoop os rest).raised⟩
      else
        ⟨(stopLoop os rest).printed, pid :: (stopLoop os rest).terminated,
         (stopLoop os rest).files, (stopLoop os rest).raised⟩ := by
  cases hstat : os pid <;> simp [stopLoop, hpid, hstat, tolerated]

/-- Unfolding of one registry-loop step whose pid file does not parse:
`int(...)` raises before the `try`, aborting the loop with the current and
all later files still present. -/
theorem stopLoop_cons_none (os : Int → ProcStatus) (name contents : String)
    (rest : List (String × String)) (hnone : pyInt contents.data = none) :
    stopLoop os ((name, contents) :: rest) =
      ⟨[], [], (name, contents) :: rest, true⟩ := by
  simp [stopLoop, hnone]

/-- C7: when every pid file parses, the registry loop never raises, removes
every record, and for each record whose process is missing, inaccessible or
a zombie it prints the "could not be terminated" message naming the pid. -/
theorem stop_tolerated_reports_and_removes (os : Int → ProcStatus)
    (files : List (String × String))
    (hparse : ∀ f ∈ files, (pyInt f.2.data).isSome) :
    (stopLoop os files).raised = false ∧
    (stopLoop os files).files = [] ∧
    ∀ f ∈ files, ∀ pid : Int, pyInt f.2.data = some pid →
      tolerated (os pid) = true →
      couldNotTerminateMsg pid ∈ (stopLoop os files).printed := by
  induction files with
  | nil =>
    refine ⟨rfl, rfl, ?_⟩
    intro f hf
    cases hf
  | cons hd rest ih =>
    obtain ⟨name, contents⟩ := hd
    obtain ⟨pid0, hpid0⟩ := Option.isSome_iff_exists.mp
      (hparse (name, contents) (List.mem_cons_self _ _))
    obtain ⟨ihr, ihf, ihm⟩ := ih (fun f hf => hparse f (List.mem_cons_of_mem _ hf))
    rw [stopLoop_cons_some os name contents rest pid0 hpid0]
    by_cases htol : tolerated (os pid0) = true
    · rw [if_pos htol]
      refine ⟨ihr, ihf, ?_⟩
      intro f hf pid hpid htolp
      rcases List.mem_cons.mp hf with hfe | hfm
      · have hpid' : pyInt contents.data = some pid := by
          rw [hfe] at hpid
          exact hpid
        have hpe : pid = pid0 := Option.some.inj (hpid'.symm.trans hpid0)
        rw [hpe]
        exact List.mem_cons_self _ _
      · exact List.mem_cons_of_mem _ (ihm f hfm pid hpid htolp)
    · rw [if_neg htol]
      refine ⟨ihr, ihf, ?_⟩
      intro f hf pid hpid htolp
      rcases List.mem_cons.mp hf with hfe | hfm
      · exfalso
        have hpid' : pyInt contents.data = some pid := by
          rw [hfe] at hpid
          exact hpid
        have hpe : pid = pid0 := Option.some.inj (hpid'.symm.trans hpid0)
        rw [hpe] at htolp
        exact htol htolp
      · exact ihm f hfm pid hpid htolp

/-- Witness for C7: a single record whose pid names a missing process. -/
theorem stop_tolerated_reports_and_removes_witness :
    (∀ f ∈ [("go.pid", "100")],
      (pyInt (Prod.snd f).data).isSome) ∧
    ((stopLoop (fun _ => ProcStatus.noSuchProcess)
        [("go.pid", "100")]).raised = false ∧
     (stopLoop (fun _ => ProcStatus.noSuchProcess)
        [("go.pid", "100")]).files = [] ∧
     ∀ f ∈ [("go.pid", "100")], ∀ pid : Int,
       pyInt (Prod.snd f).data = some pid →
       tolerated ProcStatus.noSuchProcess = true →
       couldNotTerminateMsg pid ∈
         (stopLoop (fun _ => ProcStatus.noSuchProcess)
           [("go.pid", "100")]).printed) :=
  ⟨by decide,
   stop_tolerated_reports_and_removes (fun _ => ProcStatus.noSuchProcess)
     [("go.pid", "100")] (by decide)⟩

/-- C10: a pid file whose contents do not parse as an integer aborts the
registry loop — the `int(...)` call sits outside the `try`, so the
`ValueError` escapes — and that record together with all not-yet-processed
records remains in the registry. -/
theorem stop_parse_error_aborts (os : Int → ProcStatus)
    (pre : List (String × String)) (bad : String × String)
    (rest : List (String × String))
    (hpre : ∀ f ∈ pre, (pyInt f.2.data).isSome)
    (hbad : pyInt bad.2.data = none) :
    (stopLoop os (pre ++ bad :: rest)).raised = true ∧
    (stopLoop os (pre ++ bad :: rest)).files = bad :: rest := by
  induction pre with
  | nil =>
    obtain ⟨name, contents⟩ := bad
    rw [List.nil_append, stopLoop_cons_none os name contents rest hbad]
    exact ⟨rfl, rfl⟩
  | cons hd tail ih =>
    obtain ⟨name, contents⟩ := hd
    obtain ⟨pid0, hpid0⟩ := Option.isSome_iff_exists.mp
      (hpre (name, contents) (List.mem_cons_self _ _))
    obtain ⟨h1, h2⟩ := ih (fun f hf => hpre f (List.mem_cons_of_mem _ hf))
    rw [List.cons_append,
      stopLoop_cons_some os name contents (tail ++ bad :: rest) pid0 hpid0]
    by_cases htol : tolerated (os pid0) = true
    · rw [if_pos htol]
      exact ⟨h1, h2⟩
    · rw [if_neg htol]
      exact ⟨h1, h2⟩

/-- Witness for C10: a parsing record, then a non-numeric record, then one
more record; the loop raises and the last two records remain. -/
theorem stop_parse_error_aborts_witness :
    (∀ f ∈ [("go.pid", "100")], (pyInt (Prod.snd f).data).isSome) ∧
    pyInt ("oops" : String).data = none ∧
    ((stopLoop (fun _ => ProcStatus.noSuchProcess)
        ([("go.pid", "100")] ++ ("next.pid", "oops") ::
          [("z.pid", "7")])).raised = true ∧
     (stopLoop (fun _ => ProcStatus.noSuchProcess)
        ([("go.pid", "100")] ++ ("next.pid", "oops") ::
          [("z.pid", "7")])).files =
       ("next.pid", "oops") :: [("z.pid", "7")]) :=
  ⟨by decide, by decide,
   stop_parse_error_aborts (fun _ => ProcStatus.noSuchProcess)
     [("go.pid", "100")] ("next.pid", "oops") [("z.pid", "7")]
     (by decide) (by decide)⟩

/-- C2 counterexample: invoked with the explicit argument `"stop"` (and no
interrupt), the program still launches both services — the trace of
`py_main` contains both spawn events, so the `stop` argument does not give
a termination-only mode. -/
theorem main_ignores_stop_arg_cex :
    Event.spawn "Go  " 100 ∈
      (py_main ["stop"] "/app" 100 200 false false
        (fun _ => ProcStatus.noSuchProcess) ⟨"/app", false, []⟩).2 ∧
    Event.spawn "Next" 200 ∈
      (py_main ["stop"] "/app" 100 200 false false
        (fun _ => ProcStatus.noSuchProcess) ⟨"/app", false, []⟩).2 := by
  decide

/-- C2 (amended): the entry point has a single mode. The command line is
never consulted (any two argument vectors produce identical behaviour) and
every invocation launches both configured services; `stop_processes` runs
only in reaction to a `KeyboardInterrupt`, after the launches. -/
theorem main_single_mode (argv argv' : List String) (base : String)
    (goPid nextPid : Nat) (interrupted nextRunning : Bool)
    (os : Int → ProcStatus) (st : SupState) :
    py_main argv base goPid nextPid interrupted nextRunning os st =
      py_main argv' base goPid nextPid interrupted nextRunning os st ∧
    Event.spawn "Go  " goPid ∈
      (py_main argv base goPid nextPid interrupted nextRunning os st).2 ∧
    Event.spawn "Next" nextPid ∈
      (py_main argv base goPid nextPid interrupted nextRunning os st).2 := by
  refine ⟨rfl, ?_, ?_⟩ <;>
  · obtain ⟨cwd, dirEx, files⟩ := st
    cases interrupted <;> cases dirEx <;>
      simp [py_main, start_processes, ensurePidsDir, launchGo, launchNext,
        stop_processes]

end Dev
